import Mathlib

/-!
Verification development for the `nexen-metrics` Go library
(`internal/buckets.go` and `metrics.go`): a Prometheus-based metric
registry and HTTP instrumentation middleware.

Modelling choices:
* `float64` metric values (counter/gauge values, histogram observations and
  bucket boundaries) are embedded as exact rationals `ℚ`; this is sound for
  the count- and selection-based properties treated here, and properties
  whose truth depends on IEEE-754 rounding of the accumulators are outside
  the scope of this embedding.
* The Prometheus registry is the external collaborator; its `Register`
  (duplicate-name rejection) and per-instrument accumulate operations are
  modelled from the spec's collaborator interface
  ("register(instrument) -> success|duplicate-name-error").
* Go's `net/http` status-code/`StatusText` machinery is the standard-library
  collaborator; `statusText` models `http.StatusText` on the common codes.
* An HTTP response writer is abstracted as the sequence of operations a
  handler performs on it (`WriterEvent` list); the `responseWriter`
  decorator is a fold over that sequence that tracks `statusCode` and
  forwards every operation unchanged to the underlying writer.
-/

namespace NexenMetrics

/-! ## Bucket profiles (`internal/buckets.go`) -/

/-- `internal.DefaultHTTPBuckets`: default histogram buckets for HTTP
request durations. -/
def DefaultHTTPBuckets : List ℚ :=
  [0.005, 0.01, 0.025, 0.05, 0.1, 0.25, 0.5, 1, 2.5, 5, 10]

/-- `internal.DefaultLLMLatencyBuckets`: histogram buckets for LLM
inference latency. -/
def DefaultLLMLatencyBuckets : List ℚ :=
  [0.1, 0.25, 0.5, 1, 2, 5, 10, 20, 30, 60, 120]

/-- `internal.DefaultMemoryBuckets`: histogram buckets for memory usage
metrics (in MB). -/
def DefaultMemoryBuckets : List ℚ :=
  [50, 100, 250, 500, 1000, 2000, 5000, 10000]

/-! ## Metric naming (`metrics.go` constants) -/

/-- The `namespace` constant of `metrics.go` (`namespace = "nexen"`). -/
def metricNamespace : String := "nexen"

/-- The `subsystem` constant of `metrics.go` (`subsystem = "service"`). -/
def subsystem : String := "service"

/-- Fully-qualified metric name, as the collaborator builds it from
`Namespace`/`Subsystem`/`Name` (all nonempty here):
`<namespace>_<subsystem>_<name>`. -/
def fqName (name : String) : String :=
  metricNamespace ++ "_" ++ subsystem ++ "_" ++ name

/-! ## Instruments and the collaborator registry -/

/-- The kind of a registered instrument. -/
inductive InstrumentKind where
  | counter
  | histogram
  | gauge
deriving DecidableEq, Repr

/-- One registered instrument: its kind, help text, declared label names,
bucket boundaries (histograms only; as handed over at registration), the
current counter/gauge value per label-value combination, and the list of
observations per label-value combination (histograms). -/
structure Instrument where
  kind : InstrumentKind
  help : String
  labelNames : List String
  buckets : List ℚ
  values : List (List String × ℚ)
  histObs : List (List String × List ℚ)
deriving DecidableEq, Repr

/-- The collaborator registry state: registered instruments keyed by
fully-qualified name, in registration order. -/
abbrev Registry : Type := List (String × Instrument)

/-- Registration error taxonomy (spec §7): duplicate-name rejection. -/
inductive RegError where
  | duplicateName
deriving DecidableEq, Repr

/-- Whether a fully-qualified name is already registered. -/
def containsKey (r : Registry) (k : String) : Bool :=
  r.any (fun p => p.1 = k)

/-- Modelled from the spec: the collaborator registry's register operation
("register(instrument) -> success|duplicate-name-error"); registering a
name already present fails and leaves the registry unchanged, otherwise
the instrument is appended. -/
def Register (r : Registry) (k : String) (inst : Instrument) :
    Except RegError Registry :=
  if containsKey r k then .error .duplicateName else .ok (r ++ [(k, inst)])

/-- First-match lookup of an instrument by fully-qualified name. -/
def regLookup : Registry → String → Option Instrument
  | [], _ => none
  | (n, i) :: rest, k => if n = k then some i else regLookup rest k

/-- Update the (first) instrument registered under `k`; no-op when `k` is
absent (mutating a held instrument handle in Go always finds it). -/
def regUpdate : Registry → String → (Instrument → Instrument) → Registry
  | [], _, _ => []
  | (n, i) :: rest, k, f =>
    if n = k then (n, f i) :: rest else (n, i) :: regUpdate rest k f

/-! ## Per-instrument accumulate operations (collaborator vectors) -/

/-- Current value of a counter/gauge at a label-value combination
(Prometheus vectors start every combination at 0). -/
def lookupVal : List (List String × ℚ) → List String → ℚ
  | [], _ => 0
  | (c, v) :: rest, combo => if c = combo then v else lookupVal rest combo

/-- Apply `f` to the value at a label-value combination, materialising the
combination from 0 on first touch (`WithLabelValues` semantics). -/
def bumpVal : List (List String × ℚ) → List String → (ℚ → ℚ) →
    List (List String × ℚ)
  | [], combo, f => [(combo, f 0)]
  | (c, v) :: rest, combo, f =>
    if c = combo then (c, f v) :: rest else (c, v) :: bumpVal rest combo f

/-- Observations recorded at a label-value combination of a histogram. -/
def lookupObs : List (List String × List ℚ) → List String → List ℚ
  | [], _ => []
  | (c, vs) :: rest, combo => if c = combo then vs else lookupObs rest combo

/-- Append one observation at a label-value combination of a histogram. -/
def appendObs : List (List String × List ℚ) → List String → ℚ →
    List (List String × List ℚ)
  | [], combo, v => [(combo, [v])]
  | (c, vs) :: rest, combo, v =>
    if c = combo then (c, vs ++ [v]) :: rest
    else (c, vs) :: appendObs rest combo v

/-! ## The `Metrics` facade (`metrics.go`) -/

/-- `metrics.Metrics`: the registry plus configuration. The Go struct's
per-instrument pointer fields (`httpRequests`, `httpDuration`, ...) are
the registry entries under their fixed fully-qualified names. -/
structure Metrics where
  registry : Registry
  histogramBuckets : List ℚ
  serviceName : String
deriving DecidableEq

/-- `metrics.Option`: a functional option. -/
def MetricsOption : Type := Metrics → Metrics

/-- `WithHistogramBuckets`: configures custom histogram buckets. -/
def WithHistogramBuckets (buckets : List ℚ) : MetricsOption :=
  fun m => { m with histogramBuckets := buckets }

/-- `WithServiceName`: sets a custom service name for metric labels. -/
def WithServiceName (serviceName : String) : MetricsOption :=
  fun m => { m with serviceName := serviceName }

/-- `WithRegistry`: substitutes an externally supplied registry. -/
def WithRegistry (registry : Registry) : MetricsOption :=
  fun m => { m with registry := registry }

/-- A fresh counter vector as `prometheus.NewCounterVec` produces it. -/
def newCounterVec (help : String) (labelNames : List String) : Instrument :=
  { kind := .counter, help := help, labelNames := labelNames,
    buckets := [], values := [], histObs := [] }

/-- A fresh histogram vector as `prometheus.NewHistogramVec` produces it,
holding the bucket boundaries handed over at construction. -/
def newHistogramVec (help : String) (buckets : List ℚ)
    (labelNames : List String) : Instrument :=
  { kind := .histogram, help := help, labelNames := labelNames,
    buckets := buckets, values := [], histObs := [] }

/-- A fresh gauge vector as `prometheus.NewGaugeVec` produces it. -/
def newGaugeVec (help : String) (labelNames : List String) : Instrument :=
  { kind := .gauge, help := help, labelNames := labelNames,
    buckets := [], values := [], histObs := [] }

/-- `registry.MustRegister` for one instrument: Go panics on failure; the
failure branch (name collision) is unreachable for the distinct fixed
standard names, and is embedded as a no-op. -/
def mustRegister (m : Metrics) (k : String) (inst : Instrument) : Metrics :=
  match Register m.registry k inst with
  | .ok r => { m with registry := r }
  | .error _ => m

/-- The fully-qualified names of the five standard instruments. -/
def httpRequestsKey : String := fqName "http_requests_total"

def httpDurationKey : String := fqName "http_request_duration_seconds"

def httpErrorsKey : String := fqName "http_errors_total"

def applicationEventKey : String := fqName "application_events_total"

def serviceGaugeKey : String := fqName "gauge"

/-- `metrics.New`: builds the zero configuration, applies the options in
order, then registers the five standard instruments. The process/Go
runtime collectors Go also registers are collaborator-owned metrics
outside the `nexen_service` namespace and are not modelled. -/
def New (opts : List MetricsOption) : Metrics :=
  let m : Metrics :=
    { registry := [], histogramBuckets := DefaultHTTPBuckets,
      serviceName := "default" }
  let m := opts.foldl (fun m o => o m) m
  let m := mustRegister m httpRequestsKey
    (newCounterVec "Total number of HTTP requests received"
      ["method", "path", "service"])
  let m := mustRegister m httpDurationKey
    (newHistogramVec "Histogram of HTTP request durations"
      m.histogramBuckets ["method", "path", "service"])
  let m := mustRegister m httpErrorsKey
    (newCounterVec "Total number of HTTP responses with error status codes"
      ["method", "path", "code", "service"])
  let m := mustRegister m applicationEventKey
    (newCounterVec "Count of application-specific events"
      ["event", "service"])
  let m := mustRegister m serviceGaugeKey
    (newGaugeVec "Service-specific gauge for arbitrary values"
      ["name", "service"])
  m

/-! ## Observation operations on the facade -/

/-- Replace the instrument registered under `k` by `f` of it (mutation of
a held instrument handle, seen through the shared registry). -/
def updateInstrument (m : Metrics) (k : String)
    (f : Instrument → Instrument) : Metrics :=
  { m with registry := regUpdate m.registry k f }

/-- `vec.WithLabelValues(combo...).Inc()` on the instrument named `k`. -/
def incCounterAt (m : Metrics) (k : String) (combo : List String) : Metrics :=
  updateInstrument m k
    (fun i => { i with values := bumpVal i.values combo (fun v => v + 1) })

/-- `vec.WithLabelValues(combo...).Observe(v)` on the histogram named `k`. -/
def observeAt (m : Metrics) (k : String) (combo : List String) (v : ℚ) :
    Metrics :=
  updateInstrument m k
    (fun i => { i with histObs := appendObs i.histObs combo v })

/-- `RecordEvent`: increments the application-event counter for
`(event, serviceName)`. -/
def RecordEvent (m : Metrics) (event : String) : Metrics :=
  incCounterAt m applicationEventKey [event, m.serviceName]

/-- `SetGauge`: sets the named gauge for `(name, serviceName)`. -/
def SetGauge (m : Metrics) (name : String) (value : ℚ) : Metrics :=
  updateInstrument m serviceGaugeKey (fun i =>
    { i with values := bumpVal i.values [name, m.serviceName] (fun _ => value) })

/-- `IncrementGauge`: increments the named gauge by 1. -/
def IncrementGauge (m : Metrics) (name : String) : Metrics :=
  updateInstrument m serviceGaugeKey (fun i =>
    { i with values := bumpVal i.values [name, m.serviceName] (fun v => v + 1) })

/-- `DecrementGauge`: decrements the named gauge by 1. -/
def DecrementGauge (m : Metrics) (name : String) : Metrics :=
  updateInstrument m serviceGaugeKey (fun i =>
    { i with values := bumpVal i.values [name, m.serviceName] (fun v => v - 1) })

/-! ## Custom-metric registration -/

/-- `RegisterCounter`: appends the `service` label, builds the counter,
and registers it under its fully-qualified name; on failure the error is
returned and the registry is untouched. -/
def RegisterCounter (m : Metrics) (name help : String)
    (labels : List String) : Metrics × Option RegError :=
  let allLabels := labels ++ ["service"]
  let counter := newCounterVec help allLabels
  match Register m.registry (fqName name) counter with
  | .error e => (m, some e)
  | .ok r => ({ m with registry := r }, none)

/-- `RegisterHistogram`: a `nil` buckets argument (`none`) falls back to the
configured `histogramBuckets`; any non-nil slice — including an empty one —
is handed to the collaborator as given. -/
def RegisterHistogram (m : Metrics) (name help : String)
    (buckets : Option (List ℚ)) (labels : List String) :
    Metrics × Option RegError :=
  let bs := match buckets with
    | none => m.histogramBuckets
    | some b => b
  let allLabels := labels ++ ["service"]
  let histogram := newHistogramVec help bs allLabels
  match Register m.registry (fqName name) histogram with
  | .error e => (m, some e)
  | .ok r => ({ m with registry := r }, none)

/-- `RegisterGauge`: appends the `service` label, builds the gauge, and
registers it under its fully-qualified name. -/
def RegisterGauge (m : Metrics) (name help : String)
    (labels : List String) : Metrics × Option RegError :=
  let allLabels := labels ++ ["service"]
  let gauge := newGaugeVec help allLabels
  match Register m.registry (fqName name) gauge with
  | .error e => (m, some e)
  | .ok r => ({ m with registry := r }, none)

/-! ## Response status capture (`responseWriter`) -/

/-- One operation a handler performs on its response writer: an explicit
`WriteHeader`, a body `Write`, or a header-map mutation (which the
decorator does not intercept; it reaches the embedded writer directly). -/
inductive WriterEvent where
  | writeHeader (code : ℤ)
  | write (bytes : List ℕ)
  | setHeader (key value : String)
deriving DecidableEq, Repr

/-- The `statusCode` field transition of `responseWriter` on one event:
`WriteHeader` stores the code unconditionally; `Write` stores 200 only
when no status has been recorded yet (`statusCode == 0`); header-map
access does not touch it. -/
def rwRecord (st : ℤ) : WriterEvent → ℤ
  | .writeHeader c => c
  | .write _ => if st = 0 then 200 else st
  | .setHeader _ _ => st

/-- Run the decorator over the handler's writer operations: the final
`statusCode` (starting from the zero value 0) together with the operations
forwarded to the underlying writer, each forwarded unchanged. -/
def runWriter (evs : List WriterEvent) : ℤ × List WriterEvent :=
  evs.foldl (fun acc e => (rwRecord acc.1 e, acc.2 ++ [e])) (0, [])

/-- The status the decorator has recorded after a sequence of writer
operations. -/
def captureStatus (evs : List WriterEvent) : ℤ :=
  (runWriter evs).1

/-- `http.StatusText` of the Go standard library (collaborator), on the
common codes; unknown codes map to the empty string. -/
def statusText (code : ℤ) : String :=
  if code = 200 then "OK"
  else if code = 201 then "Created"
  else if code = 204 then "No Content"
  else if code = 400 then "Bad Request"
  else if code = 401 then "Unauthorized"
  else if code = 403 then "Forbidden"
  else if code = 404 then "Not Found"
  else if code = 500 then "Internal Server Error"
  else if code = 502 then "Bad Gateway"
  else if code = 503 then "Service Unavailable"
  else ""

/-! ## Instrumentation middleware (`Instrument`) -/

/-- An HTTP request as the middleware reads it: `r.Method` and
`r.URL.Path`. -/
structure Request where
  method : String
  path : String
deriving DecidableEq, Repr

/-- A wrapped handler: given the shared `Metrics` state as visible at
invocation time and the request, the operations it performs on its
response writer. (Go handlers may read the shared registry; handlers
that do not are constant in the first argument.) -/
def Handler : Type := Metrics → Request → List WriterEvent

/-- The middleware state just before delegating to the wrapped handler:
the request counter for `(method, path, service)` has been incremented
(step 1 of §4.2 happens before the delegation of step 3). -/
def preDelegate (m : Metrics) (r : Request) : Metrics :=
  incCounterAt m httpRequestsKey [r.method, r.path, m.serviceName]

/-- One pass of the handler returned by `Instrument(next)`: increments the
request counter, delegates to `next` through the status-capturing
decorator, observes the elapsed duration (`elapsed`, supplied by the
monotonic clock), and increments the error counter when the captured
status is ≥ 400. Returns the final metrics state and the operations that
reached the underlying response writer. -/
def InstrumentServe (m : Metrics) (next : Handler) (r : Request)
    (elapsed : ℚ) : Metrics × List WriterEvent :=
  let method := r.method
  let path := r.path
  let m1 := preDelegate m r
  let evs := next m1 r
  let run := runWriter evs
  let m2 := observeAt m1 httpDurationKey [method, path, m1.serviceName] elapsed
  let statusCode := run.1
  let m3 := if statusCode ≥ 400 then
      incCounterAt m2 httpErrorsKey
        [method, path, statusText statusCode, m2.serviceName]
    else m2
  (m3, run.2)

/-- Serve a sequence of requests to the same `(method, path)` through the
instrumented handler, one elapsed duration per request. -/
def serveAll (next : Handler) (r : Request) : Metrics → List ℚ → Metrics
  | m, [] => m
  | m, d :: ds => serveAll next r (InstrumentServe m next r d).1 ds

/-! ## Derived readings -/

/-- Current counter/gauge value of instrument `k` at a combination. -/
def counterValue (m : Metrics) (k : String) (combo : List String) : ℚ :=
  match regLookup m.registry k with
  | some i => lookupVal i.values combo
  | none => 0

/-- Histogram observation count of instrument `k` at a combination. -/
def histCount (m : Metrics) (k : String) (combo : List String) : ℕ :=
  match regLookup m.registry k with
  | some i => (lookupObs i.histObs combo).length
  | none => 0

/-- Bucket boundaries of the instrument registered under `k`. -/
def bucketsOf (m : Metrics) (k : String) : Option (List ℚ) :=
  (regLookup m.registry k).map Instrument.buckets

/-- Label names of the instrument registered under `k`. -/
def labelNamesOf (m : Metrics) (k : String) : Option (List String) :=
  (regLookup m.registry k).map Instrument.labelNames

end NexenMetrics

/-! ## Basic lemmas about the registry and accumulate operations -/

namespace NexenMetrics

theorem regLookup_update_self (r : Registry) (k : String)
    (f : Instrument → Instrument) :
    regLookup (regUpdate r k f) k = (regLookup r k).map f := by
  induction r with
  | nil => rfl
  | cons p rest ih =>
    obtain ⟨n, i⟩ := p
    by_cases h : n = k
    · simp [regUpdate, regLookup, h]
    · simp [regUpdate, regLookup, h, ih]

theorem regLookup_update_ne (r : Registry) (k k' : String)
    (f : Instrument → Instrument) (h : k' ≠ k) :
    regLookup (regUpdate r k f) k' = regLookup r k' := by
  induction r with
  | nil => rfl
  | cons p rest ih =>
    obtain ⟨n, i⟩ := p
    by_cases hn : n = k
    · subst hn
      simp [regUpdate, regLookup, Ne.symm h]
    · simp [regUpdate, regLookup, hn, ih]

theorem keys_regUpdate (r : Registry) (k : String)
    (f : Instrument → Instrument) :
    (regUpdate r k f).map Prod.fst = r.map Prod.fst := by
  induction r with
  | nil => rfl
  | cons p rest ih =>
    obtain ⟨n, i⟩ := p
    by_cases h : n = k
    · simp [regUpdate, h]
    · simp [regUpdate, h, ih]

theorem containsKey_eq_any_keys (r : Registry) (k : String) :
    containsKey r k = (r.map Prod.fst).any (fun n => n = k) := by
  induction r with
  | nil => rfl
  | cons p rest ih => simp [containsKey, List.any] at ih ⊢; simp [ih]

theorem containsKey_regUpdate (r : Registry) (k k' : String)
    (f : Instrument → Instrument) :
    containsKey (regUpdate r k f) k' = containsKey r k' := by
  rw [containsKey_eq_any_keys, containsKey_eq_any_keys, keys_regUpdate]

theorem regLookup_isSome_of_containsKey (r : Registry) (k : String)
    (h : containsKey r k = true) : ∃ i, regLookup r k = some i := by
  induction r with
  | nil => simp [containsKey] at h
  | cons p rest ih =>
    obtain ⟨n, i⟩ := p
    by_cases hn : n = k
    · exact ⟨i, by simp [regLookup, hn]⟩
    · simp [containsKey, hn] at h
      obtain ⟨j, hj⟩ := ih (by simpa [containsKey] using h)
      exact ⟨j, by simp [regLookup, hn, hj]⟩

theorem lookupVal_bump_self (l : List (List String × ℚ))
    (combo : List String) (f : ℚ → ℚ) :
    lookupVal (bumpVal l combo f) combo = f (lookupVal l combo) := by
  induction l with
  | nil => simp [bumpVal, lookupVal]
  | cons p rest ih =>
    obtain ⟨c, v⟩ := p
    by_cases h : c = combo
    · simp [bumpVal, lookupVal, h]
    · simp [bumpVal, lookupVal, h, ih]

theorem lookupVal_bump_ne (l : List (List String × ℚ))
    (combo combo' : List String) (f : ℚ → ℚ) (h : combo' ≠ combo) :
    lookupVal (bumpVal l combo f) combo' = lookupVal l combo' := by
  induction l with
  | nil => simp [bumpVal, lookupVal, Ne.symm h]
  | cons p rest ih =>
    obtain ⟨c, v⟩ := p
    by_cases hc : c = combo
    · subst hc
      simp [bumpVal, lookupVal, Ne.symm h]
    · simp [bumpVal, lookupVal, hc, ih]

theorem lookupObs_append_self (l : List (List String × List ℚ))
    (combo : List String) (v : ℚ) :
    lookupObs (appendObs l combo v) combo = lookupObs l combo ++ [v] := by
  induction l with
  | nil => simp [appendObs, lookupObs]
  | cons p rest ih =>
    obtain ⟨c, vs⟩ := p
    by_cases h : c = combo
    · simp [appendObs, lookupObs, h]
    · simp [appendObs, lookupObs, h, ih]

theorem lookupObs_append_ne (l : List (List String × List ℚ))
    (combo combo' : List String) (v : ℚ) (h : combo' ≠ combo) :
    lookupObs (appendObs l combo v) combo' = lookupObs l combo' := by
  induction l with
  | nil => simp [appendObs, lookupObs, Ne.symm h]
  | cons p rest ih =>
    obtain ⟨c, vs⟩ := p
    by_cases hc : c = combo
    · subst hc
      simp [appendObs, lookupObs, Ne.symm h]
    · simp [appendObs, lookupObs, hc, ih]

end NexenMetrics

/-! ## Lemmas about facade-level readings -/

namespace NexenMetrics

theorem serviceName_updateInstrument (m : Metrics) (k : String)
    (f : Instrument → Instrument) :
    (updateInstrument m k f).serviceName = m.serviceName := rfl

theorem histogramBuckets_updateInstrument (m : Metrics) (k : String)
    (f : Instrument → Instrument) :
    (updateInstrument m k f).histogramBuckets = m.histogramBuckets := rfl

theorem containsKey_updateInstrument (m : Metrics) (k k' : String)
    (f : Instrument → Instrument) :
    containsKey (updateInstrument m k f).registry k' =
      containsKey m.registry k' := by
  simp [updateInstrument, containsKey_regUpdate]

theorem counterValue_inc_self (m : Metrics) (k : String)
    (combo : List String) (h : containsKey m.registry k = true) :
    counterValue (incCounterAt m k combo) k combo =
      counterValue m k combo + 1 := by
  obtain ⟨i, hi⟩ := regLookup_isSome_of_containsKey m.registry k h
  simp [counterValue, incCounterAt, updateInstrument, regLookup_update_self,
    hi, lookupVal_bump_self]

theorem counterValue_inc_ne_combo (m : Metrics) (k : String)
    (combo combo' : List String) (h : combo' ≠ combo) :
    counterValue (incCounterAt m k combo) k combo' =
      counterValue m k combo' := by
  cases hi : regLookup m.registry k with
  | none =>
    simp [counterValue, incCounterAt, updateInstrument, regLookup_update_self, hi]
  | some i =>
    simp [counterValue, incCounterAt, updateInstrument, regLookup_update_self,
      hi, lookupVal_bump_ne _ _ _ _ h]

theorem regLookup_updateInstrument_ne (m : Metrics) (k k' : String)
    (f : Instrument → Instrument) (h : k' ≠ k) :
    regLookup (updateInstrument m k f).registry k' = regLookup m.registry k' := by
  simp [updateInstrument, regLookup_update_ne _ _ _ _ h]

theorem counterValue_updateInstrument_ne (m : Metrics) (k k' : String)
    (combo : List String) (f : Instrument → Instrument) (h : k' ≠ k) :
    counterValue (updateInstrument m k f) k' combo = counterValue m k' combo := by
  simp [counterValue, regLookup_updateInstrument_ne _ _ _ _ h]

theorem histCount_updateInstrument_ne (m : Metrics) (k k' : String)
    (combo : List String) (f : Instrument → Instrument) (h : k' ≠ k) :
    histCount (updateInstrument m k f) k' combo = histCount m k' combo := by
  simp [histCount, regLookup_updateInstrument_ne _ _ _ _ h]

theorem counterValue_observeAt (m : Metrics) (k k' : String)
    (combo combo' : List String) (v : ℚ) :
    counterValue (observeAt m k combo v) k' combo' = counterValue m k' combo' := by
  by_cases h : k' = k
  · subst h
    cases hi : regLookup m.registry k' with
    | none =>
      simp [counterValue, observeAt, updateInstrument, regLookup_update_self, hi]
    | some i =>
      simp [counterValue, observeAt, updateInstrument, regLookup_update_self, hi]
  · exact counterValue_updateInstrument_ne _ _ _ _ _ h

theorem histCount_incCounterAt (m : Metrics) (k k' : String)
    (combo combo' : List String) :
    histCount (incCounterAt m k combo) k' combo' = histCount m k' combo' := by
  by_cases h : k' = k
  · subst h
    cases hi : regLookup m.registry k' with
    | none =>
      simp [histCount, incCounterAt, updateInstrument, regLookup_update_self, hi]
    | some i =>
      simp [histCount, incCounterAt, updateInstrument, regLookup_update_self, hi]
  · exact histCount_updateInstrument_ne _ _ _ _ _ h

theorem histCount_observe_self (m : Metrics) (k : String)
    (combo : List String) (v : ℚ) (h : containsKey m.registry k = true) :
    histCount (observeAt m k combo v) k combo = histCount m k combo + 1 := by
  obtain ⟨i, hi⟩ := regLookup_isSome_of_containsKey m.registry k h
  simp [histCount, observeAt, updateInstrument, regLookup_update_self, hi,
    lookupObs_append_self]

theorem histCount_observe_ne_combo (m : Metrics) (k : String)
    (combo combo' : List String) (v : ℚ) (h : combo' ≠ combo) :
    histCount (observeAt m k combo v) k combo' = histCount m k combo' := by
  cases hi : regLookup m.registry k with
  | none =>
    simp [histCount, observeAt, updateInstrument, regLookup_update_self, hi]
  | some i =>
    simp [histCount, observeAt, updateInstrument, regLookup_update_self, hi,
      lookupObs_append_ne _ _ _ _ h]

end NexenMetrics

/-! ## Lemmas about the status-capturing decorator -/

namespace NexenMetrics

theorem runWriter_foldl_snd (evs : List WriterEvent) (st : ℤ)
    (acc : List WriterEvent) :
    (evs.foldl (fun acc e => (rwRecord acc.1 e, acc.2 ++ [e])) (st, acc)).2 =
      acc ++ evs := by
  induction evs generalizing st acc with
  | nil => simp
  | cons e rest ih => simp [List.foldl, ih]

/-- The decorator forwards every writer operation unchanged to the
underlying writer. -/
theorem runWriter_snd (evs : List WriterEvent) : (runWriter evs).2 = evs := by
  simpa using runWriter_foldl_snd evs 0 []

theorem runWriter_foldl_fst (evs : List WriterEvent) (st : ℤ)
    (acc : List WriterEvent) :
    (evs.foldl (fun acc e => (rwRecord acc.1 e, acc.2 ++ [e])) (st, acc)).1 =
      evs.foldl rwRecord st := by
  induction evs generalizing st acc with
  | nil => rfl
  | cons e rest ih => simp [List.foldl, ih]

theorem captureStatus_eq_foldl (evs : List WriterEvent) :
    captureStatus evs = evs.foldl rwRecord 0 := by
  simpa [captureStatus, runWriter] using runWriter_foldl_fst evs 0 []

theorem captureStatus_append_one (evs : List WriterEvent) (e : WriterEvent) :
    captureStatus (evs ++ [e]) = rwRecord (captureStatus evs) e := by
  simp [captureStatus_eq_foldl, List.foldl_append]

/-- Whether the handler made an explicit set-status (`WriteHeader`) call. -/
def hasWriteHeader (evs : List WriterEvent) : Bool :=
  evs.any (fun e => match e with
    | .writeHeader _ => true
    | _ => false)

/-- Whether the handler made a body-write (`Write`) call. -/
def hasBodyWrite (evs : List WriterEvent) : Bool :=
  evs.any (fun e => match e with
    | .write _ => true
    | _ => false)

theorem foldl_rwRecord_200_of_no_writeHeader (evs : List WriterEvent)
    (h : hasWriteHeader evs = false) :
    evs.foldl rwRecord 200 = 200 := by
  induction evs with
  | nil => rfl
  | cons e rest ih =>
    cases e with
    | writeHeader c => simp [hasWriteHeader] at h
    | write b =>
      simp [hasWriteHeader] at h
      simp [List.foldl, rwRecord]
      exact ih (by simpa [hasWriteHeader] using h)
    | setHeader k v =>
      simp [hasWriteHeader] at h
      simp [List.foldl, rwRecord]
      exact ih (by simpa [hasWriteHeader] using h)

/-- With no explicit set-status call, the recorded status is 200 when a
body write occurred and the zero value otherwise. -/
theorem captureStatus_of_no_writeHeader (evs : List WriterEvent)
    (h : hasWriteHeader evs = false) :
    captureStatus evs = if hasBodyWrite evs then 200 else 0 := by
  rw [captureStatus_eq_foldl]
  induction evs with
  | nil => rfl
  | cons e rest ih =>
    cases e with
    | writeHeader c => simp [hasWriteHeader] at h
    | write b =>
      simp [hasWriteHeader] at h
      simp [List.foldl, rwRecord, hasBodyWrite]
      exact foldl_rwRecord_200_of_no_writeHeader rest
        (by simpa [hasWriteHeader] using h)
    | setHeader k v =>
      simp [hasWriteHeader] at h
      simp [List.foldl, rwRecord, hasBodyWrite]
      simpa [hasBodyWrite] using ih (by simpa [hasWriteHeader] using h)

end NexenMetrics

/-! ## Lemmas about construction and the middleware -/

namespace NexenMetrics

theorem containsKey_mustRegister_self (m : Metrics) (k : String)
    (inst : Instrument) :
    containsKey (mustRegister m k inst).registry k = true := by
  unfold mustRegister Register
  cases h : containsKey m.registry k with
  | true => simp [h]
  | false => simp [h, containsKey, List.any_append]

theorem containsKey_mustRegister_mono (m : Metrics) (k k' : String)
    (inst : Instrument) (h : containsKey m.registry k' = true) :
    containsKey (mustRegister m k inst).registry k' = true := by
  unfold mustRegister Register
  by_cases hc : containsKey m.registry k
  · simp [hc, h]
  · simp [hc]
    simp [containsKey] at h ⊢
    exact Or.inl h

theorem serviceName_mustRegister (m : Metrics) (k : String)
    (inst : Instrument) :
    (mustRegister m k inst).serviceName = m.serviceName := by
  unfold mustRegister
  cases Register m.registry k inst <;> rfl

/-- All five standard instruments are present after construction,
whatever the options did. -/
theorem New_contains_std (opts : List MetricsOption) :
    containsKey (New opts).registry httpRequestsKey = true ∧
    containsKey (New opts).registry httpDurationKey = true ∧
    containsKey (New opts).registry httpErrorsKey = true ∧
    containsKey (New opts).registry applicationEventKey = true ∧
    containsKey (New opts).registry serviceGaugeKey = true := by
  simp only [New]
  refine ⟨?_, ?_, ?_, ?_, ?_⟩ <;>
    repeat (first
      | exact containsKey_mustRegister_self _ _ _
      | apply containsKey_mustRegister_mono)

theorem httpDurationKey_ne_httpRequestsKey :
    httpDurationKey ≠ httpRequestsKey := by decide

theorem httpErrorsKey_ne_httpRequestsKey :
    httpErrorsKey ≠ httpRequestsKey := by decide

theorem httpErrorsKey_ne_httpDurationKey :
    httpErrorsKey ≠ httpDurationKey := by decide

theorem httpRequestsKey_ne_httpDurationKey :
    httpRequestsKey ≠ httpDurationKey := by decide

theorem httpRequestsKey_ne_httpErrorsKey :
    httpRequestsKey ≠ httpErrorsKey := by decide

theorem httpDurationKey_ne_httpErrorsKey :
    httpDurationKey ≠ httpErrorsKey := by decide

theorem counterValue_incCounterAt_ne_key (m : Metrics) (k k' : String)
    (combo combo' : List String) (h : k' ≠ k) :
    counterValue (incCounterAt m k combo) k' combo' =
      counterValue m k' combo' :=
  counterValue_updateInstrument_ne m k k' combo' _ h

/-- The state passed to the wrapped handler is the pre-state with the
request counter incremented by exactly 1 for `(method, path, service)`. -/
theorem preDelegate_requests (m : Metrics) (r : Request)
    (h : containsKey m.registry httpRequestsKey = true) :
    counterValue (preDelegate m r) httpRequestsKey
        [r.method, r.path, m.serviceName] =
      counterValue m httpRequestsKey [r.method, r.path, m.serviceName] + 1 :=
  counterValue_inc_self m httpRequestsKey [r.method, r.path, m.serviceName] h

theorem preDelegate_serviceName (m : Metrics) (r : Request) :
    (preDelegate m r).serviceName = m.serviceName := rfl

theorem InstrumentServe_serviceName (m : Metrics) (next : Handler)
    (r : Request) (d : ℚ) :
    (InstrumentServe m next r d).1.serviceName = m.serviceName := by
  simp only [InstrumentServe]
  split <;> rfl

theorem InstrumentServe_containsKey (m : Metrics) (next : Handler)
    (r : Request) (d : ℚ) (k : String) :
    containsKey (InstrumentServe m next r d).1.registry k =
      containsKey m.registry k := by
  simp only [InstrumentServe]
  split <;>
    simp [preDelegate, incCounterAt, observeAt, containsKey_updateInstrument]

/-- The operations that reach the underlying response writer are exactly
the operations the wrapped handler performed. -/
theorem InstrumentServe_output (m : Metrics) (next : Handler)
    (r : Request) (d : ℚ) :
    (InstrumentServe m next r d).2 = next (preDelegate m r) r := by
  simp only [InstrumentServe]
  exact runWriter_snd _

/-- One instrumented pass increments the request counter for
`(method, path, service)` by exactly 1. -/
theorem InstrumentServe_requests (m : Metrics) (next : Handler)
    (r : Request) (d : ℚ)
    (h : containsKey m.registry httpRequestsKey = true) :
    counterValue (InstrumentServe m next r d).1 httpRequestsKey
        [r.method, r.path, m.serviceName] =
      counterValue m httpRequestsKey [r.method, r.path, m.serviceName] + 1 := by
  simp only [InstrumentServe]
  split
  · rw [counterValue_incCounterAt_ne_key _ _ _ _ _ httpRequestsKey_ne_httpErrorsKey,
      counterValue_observeAt]
    exact preDelegate_requests m r h
  · rw [counterValue_observeAt]
    exact preDelegate_requests m r h

/-- One instrumented pass observes exactly one duration sample for
`(method, path, service)`. -/
theorem InstrumentServe_duration (m : Metrics) (next : Handler)
    (r : Request) (d : ℚ)
    (h : containsKey m.registry httpDurationKey = true) :
    histCount (InstrumentServe m next r d).1 httpDurationKey
        [r.method, r.path, m.serviceName] =
      histCount m httpDurationKey [r.method, r.path, m.serviceName] + 1 := by
  simp only [InstrumentServe]
  split
  · rw [histCount_incCounterAt]
    rw [preDelegate_serviceName]
    rw [histCount_observe_self _ _ _ _ (by simpa [preDelegate, incCounterAt,
      containsKey_updateInstrument] using h)]
    simp [preDelegate, incCounterAt, histCount_updateInstrument_ne _ _ _ _ _
      httpDurationKey_ne_httpRequestsKey]
  · rw [preDelegate_serviceName]
    rw [histCount_observe_self _ _ _ _ (by simpa [preDelegate, incCounterAt,
      containsKey_updateInstrument] using h)]
    simp [preDelegate, incCounterAt, histCount_updateInstrument_ne _ _ _ _ _
      httpDurationKey_ne_httpRequestsKey]

end NexenMetrics

/-! ## Error-counter behaviour of one instrumented pass -/

namespace NexenMetrics

theorem regLookup_incCounterAt_ne (m : Metrics) (k k' : String)
    (combo : List String) (h : k' ≠ k) :
    regLookup (incCounterAt m k combo).registry k' = regLookup m.registry k' :=
  regLookup_updateInstrument_ne m k k' _ h

theorem regLookup_observeAt_ne (m : Metrics) (k k' : String)
    (combo : List String) (v : ℚ) (h : k' ≠ k) :
    regLookup (observeAt m k combo v).registry k' = regLookup m.registry k' :=
  regLookup_updateInstrument_ne m k k' _ h

theorem captureStatus_runWriter (evs : List WriterEvent) :
    (runWriter evs).1 = captureStatus evs := rfl

theorem serviceName_observeAt (m : Metrics) (k : String)
    (combo : List String) (v : ℚ) :
    (observeAt m k combo v).serviceName = m.serviceName := rfl

theorem serviceName_incCounterAt (m : Metrics) (k : String)
    (combo : List String) :
    (incCounterAt m k combo).serviceName = m.serviceName := rfl

/-- A captured status below 400 leaves the error-counter instrument
entirely untouched. -/
theorem InstrumentServe_errors_of_lt (m : Metrics) (next : Handler)
    (r : Request) (d : ℚ)
    (hlt : captureStatus (next (preDelegate m r) r) < 400) :
    regLookup (InstrumentServe m next r d).1.registry httpErrorsKey =
      regLookup m.registry httpErrorsKey := by
  simp only [InstrumentServe, captureStatus_runWriter, serviceName_observeAt,
    preDelegate_serviceName]
  rw [if_neg (not_le.mpr hlt)]
  rw [regLookup_observeAt_ne _ _ _ _ _ httpErrorsKey_ne_httpDurationKey]
  exact regLookup_incCounterAt_ne _ _ _ _ httpErrorsKey_ne_httpRequestsKey

/-- A captured status of at least 400 increments the error counter for
`(method, path, statusText, service)` by exactly 1. -/
theorem InstrumentServe_errors_inc (m : Metrics) (next : Handler)
    (r : Request) (d : ℚ)
    (hge : 400 ≤ captureStatus (next (preDelegate m r) r))
    (hc : containsKey m.registry httpErrorsKey = true) :
    counterValue (InstrumentServe m next r d).1 httpErrorsKey
        [r.method, r.path,
          statusText (captureStatus (next (preDelegate m r) r)),
          m.serviceName] =
      counterValue m httpErrorsKey
        [r.method, r.path,
          statusText (captureStatus (next (preDelegate m r) r)),
          m.serviceName] + 1 := by
  simp only [InstrumentServe, captureStatus_runWriter, serviceName_observeAt,
    preDelegate_serviceName]
  rw [if_pos hge]
  have hc2 : containsKey (observeAt (preDelegate m r) httpDurationKey
      [r.method, r.path, m.serviceName] d).registry
      httpErrorsKey = true := by
    simpa [observeAt, preDelegate, incCounterAt,
      containsKey_updateInstrument] using hc
  rw [counterValue_inc_self _ _ _ hc2]
  rw [counterValue_observeAt]
  rw [show preDelegate m r =
    incCounterAt m httpRequestsKey [r.method, r.path, m.serviceName] from rfl]
  rw [counterValue_incCounterAt_ne_key _ _ _ _ _ httpErrorsKey_ne_httpRequestsKey]

/-- A captured status of at least 400 leaves every other label combination
of the error counter unchanged. -/
theorem InstrumentServe_errors_other_combo (m : Metrics) (next : Handler)
    (r : Request) (d : ℚ) (combo : List String)
    (hne : combo ≠ [r.method, r.path,
      statusText (captureStatus (next (preDelegate m r) r)), m.serviceName]) :
    counterValue (InstrumentServe m next r d).1 httpErrorsKey combo =
      counterValue m httpErrorsKey combo := by
  simp only [InstrumentServe, captureStatus_runWriter, serviceName_observeAt,
    preDelegate_serviceName]
  split
  · rw [counterValue_inc_ne_combo _ _ _ _ hne]
    rw [counterValue_observeAt]
    exact counterValue_incCounterAt_ne_key _ _ _ _ _ httpErrorsKey_ne_httpRequestsKey
  · rw [counterValue_observeAt]
    exact counterValue_incCounterAt_ne_key _ _ _ _ _ httpErrorsKey_ne_httpRequestsKey

/-- Instruments other than the three the middleware touches are left
exactly as they were. -/
theorem InstrumentServe_other_keys (m : Metrics) (next : Handler)
    (r : Request) (d : ℚ) (k : String)
    (h1 : k ≠ httpRequestsKey) (h2 : k ≠ httpDurationKey)
    (h3 : k ≠ httpErrorsKey) :
    regLookup (InstrumentServe m next r d).1.registry k =
      regLookup m.registry k := by
  simp only [InstrumentServe]
  split
  · rw [regLookup_incCounterAt_ne _ _ _ _ h3,
      regLookup_observeAt_ne _ _ _ _ _ h2]
    exact regLookup_incCounterAt_ne _ _ _ _ h1
  · rw [regLookup_observeAt_ne _ _ _ _ _ h2]
    exact regLookup_incCounterAt_ne _ _ _ _ h1

/-- Request-counter combinations other than `(method, path, service)` are
unchanged by one pass. -/
theorem InstrumentServe_requests_other_combo (m : Metrics) (next : Handler)
    (r : Request) (d : ℚ) (combo : List String)
    (hne : combo ≠ [r.method, r.path, m.serviceName]) :
    counterValue (InstrumentServe m next r d).1 httpRequestsKey combo =
      counterValue m httpRequestsKey combo := by
  simp only [InstrumentServe]
  split
  · rw [counterValue_incCounterAt_ne_key _ _ _ _ _ httpRequestsKey_ne_httpErrorsKey,
      counterValue_observeAt]
    exact counterValue_inc_ne_combo _ _ _ _ hne
  · rw [counterValue_observeAt]
    exact counterValue_inc_ne_combo _ _ _ _ hne

/-! ## Iterated serving -/

theorem serveAll_requests (next : Handler) (r : Request) (ds : List ℚ) :
    ∀ m : Metrics, containsKey m.registry httpRequestsKey = true →
      counterValue (serveAll next r m ds) httpRequestsKey
          [r.method, r.path, m.serviceName] =
        counterValue m httpRequestsKey [r.method, r.path, m.serviceName] +
          ds.length := by
  induction ds with
  | nil => intro m _; simp [serveAll]
  | cons d ds ih =>
    intro m hm
    have hms := InstrumentServe_serviceName m next r d
    have hck := InstrumentServe_containsKey m next r d httpRequestsKey
    have step := InstrumentServe_requests m next r d hm
    have tail := ih (InstrumentServe m next r d).1 (by rw [hck]; exact hm)
    rw [hms] at tail
    simp only [serveAll]
    rw [tail, step]
    simp only [List.length_cons]
    push_cast
    ring

theorem serveAll_duration (next : Handler) (r : Request) (ds : List ℚ) :
    ∀ m : Metrics, containsKey m.registry httpDurationKey = true →
      histCount (serveAll next r m ds) httpDurationKey
          [r.method, r.path, m.serviceName] =
        histCount m httpDurationKey [r.method, r.path, m.serviceName] +
          ds.length := by
  induction ds with
  | nil => intro m _; simp [serveAll]
  | cons d ds ih =>
    intro m hm
    have hms := InstrumentServe_serviceName m next r d
    have hck := InstrumentServe_containsKey m next r d httpDurationKey
    have step := InstrumentServe_duration m next r d hm
    have tail := ih (InstrumentServe m next r d).1 (by rw [hck]; exact hm)
    rw [hms] at tail
    simp only [serveAll]
    rw [tail, step]
    simp only [List.length_cons]
    omega

end NexenMetrics

/-! ## Registration helper lemmas -/

namespace NexenMetrics

theorem containsKey_append_self (r : Registry) (k : String) (i : Instrument) :
    containsKey (r ++ [(k, i)]) k = true := by
  simp [containsKey, List.any_append]

theorem regLookup_append_fresh (r : Registry) (k : String) (i : Instrument)
    (h : containsKey r k = false) : regLookup (r ++ [(k, i)]) k = some i := by
  induction r with
  | nil => simp [regLookup]
  | cons p rest ih =>
    obtain ⟨n, j⟩ := p
    simp [containsKey] at h
    obtain ⟨hn, hrest⟩ := h
    simp [regLookup, hn]
    exact ih (by simpa [containsKey] using hrest)

theorem RegisterCounter_of_fresh (m : Metrics) (name help : String)
    (labels : List String)
    (h : containsKey m.registry (fqName name) = false) :
    RegisterCounter m name help labels =
      ({ m with registry := m.registry ++
          [(fqName name, newCounterVec help (labels ++ ["service"]))] },
        none) := by
  simp [RegisterCounter, Register, h]

theorem RegisterCounter_of_dup (m : Metrics) (name help : String)
    (labels : List String)
    (h : containsKey m.registry (fqName name) = true) :
    RegisterCounter m name help labels = (m, some RegError.duplicateName) := by
  simp [RegisterCounter, Register, h]

theorem RegisterHistogram_of_fresh (m : Metrics) (name help : String)
    (buckets : Option (List ℚ)) (labels : List String)
    (h : containsKey m.registry (fqName name) = false) :
    RegisterHistogram m name help buckets labels =
      ({ m with registry := m.registry ++
          [(fqName name, newHistogramVec help
            (match buckets with | none => m.histogramBuckets | some b => b)
            (labels ++ ["service"]))] },
        none) := by
  cases buckets <;> simp [RegisterHistogram, Register, h]

theorem RegisterHistogram_of_dup (m : Metrics) (name help : String)
    (buckets : Option (List ℚ)) (labels : List String)
    (h : containsKey m.registry (fqName name) = true) :
    RegisterHistogram m name help buckets labels =
      (m, some RegError.duplicateName) := by
  cases buckets <;> simp [RegisterHistogram, Register, h]

theorem RegisterGauge_of_fresh (m : Metrics) (name help : String)
    (labels : List String)
    (h : containsKey m.registry (fqName name) = false) :
    RegisterGauge m name help labels =
      ({ m with registry := m.registry ++
          [(fqName name, newGaugeVec help (labels ++ ["service"]))] },
        none) := by
  simp [RegisterGauge, Register, h]

theorem RegisterGauge_of_dup (m : Metrics) (name help : String)
    (labels : List String)
    (h : containsKey m.registry (fqName name) = true) :
    RegisterGauge m name help labels = (m, some RegError.duplicateName) := by
  simp [RegisterGauge, Register, h]

theorem RegisterCounter_success_contains (m m' : Metrics) (name help : String)
    (labels : List String)
    (h : RegisterCounter m name help labels = (m', none)) :
    containsKey m'.registry (fqName name) = true := by
  cases hck : containsKey m.registry (fqName name) with
  | true => rw [RegisterCounter_of_dup m name help labels hck] at h; simp at h
  | false =>
    rw [RegisterCounter_of_fresh m name help labels hck] at h
    have hm : m' = { m with registry := m.registry ++
        [(fqName name, newCounterVec help (labels ++ ["service"]))] } :=
      congrArg Prod.fst h.symm
    rw [hm]
    exact containsKey_append_self _ _ _

theorem RegisterCounter_snd_none_contains (m : Metrics) (name help : String)
    (labels : List String)
    (h : (RegisterCounter m name help labels).2 = none) :
    containsKey (RegisterCounter m name help labels).1.registry
      (fqName name) = true := by
  cases hck : containsKey m.registry (fqName name) with
  | true =>
    rw [RegisterCounter_of_dup m name help labels hck] at h
    simp at h
  | false =>
    rw [RegisterCounter_of_fresh m name help labels hck]
    exact containsKey_append_self _ _ _

theorem RegisterHistogram_snd_none_contains (m : Metrics)
    (name help : String) (bs : Option (List ℚ)) (labels : List String)
    (h : (RegisterHistogram m name help bs labels).2 = none) :
    containsKey (RegisterHistogram m name help bs labels).1.registry
      (fqName name) = true := by
  cases hck : containsKey m.registry (fqName name) with
  | true =>
    rw [RegisterHistogram_of_dup m name help bs labels hck] at h
    simp at h
  | false =>
    rw [RegisterHistogram_of_fresh m name help bs labels hck]
    exact containsKey_append_self _ _ _

theorem RegisterGauge_snd_none_contains (m : Metrics) (name help : String)
    (labels : List String)
    (h : (RegisterGauge m name help labels).2 = none) :
    containsKey (RegisterGauge m name help labels).1.registry
      (fqName name) = true := by
  cases hck : containsKey m.registry (fqName name) with
  | true =>
    rw [RegisterGauge_of_dup m name help labels hck] at h
    simp at h
  | false =>
    rw [RegisterGauge_of_fresh m name help labels hck]
    exact containsKey_append_self _ _ _

end NexenMetrics

/-! ## Claim theorems -/

namespace NexenMetrics

/-- C1: for every valid (name, labels), `RegisterCounter` /
`RegisterHistogram` / `RegisterGauge` succeed exactly once per unique
name: the first registration of an unregistered name succeeds (for each of
the three kinds), and after a name has been registered once — by any of
the three kinds — any second registration of that name, again by any
instrument kind, returns the duplicate-name error while returning the
metrics state unchanged, so the existing instrument for that name and every
other registered instrument (standard and custom) are unaffected. -/
theorem C1_register_exactly_once (m : Metrics) (name help help2 : String)
    (labels labels2 labels3 : List String) (bs bs2 : Option (List ℚ)) :
    (containsKey m.registry (fqName name) = false →
      (RegisterCounter m name help labels).2 = none ∧
      (RegisterHistogram m name help bs labels).2 = none ∧
      (RegisterGauge m name help labels).2 = none) ∧
    (∀ m' : Metrics,
      (RegisterCounter m name help labels = (m', none) ∨
        RegisterHistogram m name help bs labels = (m', none) ∨
        RegisterGauge m name help labels = (m', none)) →
      RegisterCounter m' name help2 labels2 =
        (m', some RegError.duplicateName) ∧
      RegisterHistogram m' name help2 bs2 labels2 =
        (m', some RegError.duplicateName) ∧
      RegisterGauge m' name help2 labels3 =
        (m', some RegError.duplicateName)) := by
  constructor
  · intro h
    rw [RegisterCounter_of_fresh m name help labels h,
      RegisterHistogram_of_fresh m name help bs labels h,
      RegisterGauge_of_fresh m name help labels h]
    exact ⟨rfl, rfl, rfl⟩
  · intro m' hfirst
    have hck : containsKey m'.registry (fqName name) = true := by
      rcases hfirst with heq | heq | heq
      · have h2 : (RegisterCounter m name help labels).2 = none := by
          rw [heq]
        have h1 : (RegisterCounter m name help labels).1 = m' := by
          rw [heq]
        rw [← h1]
        exact RegisterCounter_snd_none_contains m name help labels h2
      · have h2 : (RegisterHistogram m name help bs labels).2 = none := by
          rw [heq]
        have h1 : (RegisterHistogram m name help bs labels).1 = m' := by
          rw [heq]
        rw [← h1]
        exact RegisterHistogram_snd_none_contains m name help bs labels h2
      · have h2 : (RegisterGauge m name help labels).2 = none := by
          rw [heq]
        have h1 : (RegisterGauge m name help labels).1 = m' := by
          rw [heq]
        rw [← h1]
        exact RegisterGauge_snd_none_contains m name help labels h2
    exact ⟨RegisterCounter_of_dup m' name help2 labels2 hck,
      RegisterHistogram_of_dup m' name help2 bs2 labels2 hck,
      RegisterGauge_of_dup m' name help2 labels3 hck⟩

/-- Witness for C1 at concrete inputs: registering `test_counter` on a
fresh registry succeeds and re-registering the same name fails with the
duplicate-name error, leaving the state unchanged; likewise with a
histogram registered first, a second registration of its name by another
kind (gauge) fails and leaves the state unchanged. -/
theorem C1_register_exactly_once_witness :
    (RegisterCounter (New []) "test_counter" "a counter" ["label1"]).2 =
      none ∧
    RegisterCounter
        (RegisterCounter (New []) "test_counter" "a counter" ["label1"]).1
        "test_counter" "again" [] =
      ((RegisterCounter (New []) "test_counter" "a counter" ["label1"]).1,
        some RegError.duplicateName) ∧
    (RegisterHistogram (New []) "llm_latency_seconds" "hist" none []).2 =
      none ∧
    RegisterGauge
        (RegisterHistogram (New []) "llm_latency_seconds" "hist" none []).1
        "llm_latency_seconds" "again" [] =
      ((RegisterHistogram (New []) "llm_latency_seconds" "hist" none []).1,
        some RegError.duplicateName) := by
  have hC := C1_register_exactly_once (New []) "test_counter" "a counter"
    "again" ["label1"] [] [] none none
  have hH := C1_register_exactly_once (New []) "llm_latency_seconds" "hist"
    "again" [] [] [] none none
  have hc1 := (hC.1 (by decide)).1
  have hpairC : RegisterCounter (New []) "test_counter" "a counter"
      ["label1"] =
      ((RegisterCounter (New []) "test_counter" "a counter" ["label1"]).1,
        none) := by
    rw [← hc1]
  have hh1 := (hH.1 (by decide)).2.1
  have hpairH : RegisterHistogram (New []) "llm_latency_seconds" "hist"
      none [] =
      ((RegisterHistogram (New []) "llm_latency_seconds" "hist" none []).1,
        none) := by
    rw [← hh1]
  exact ⟨hc1, (hC.2 _ (Or.inl hpairC)).1, hh1,
    (hH.2 _ (Or.inr (Or.inl hpairH))).2.2⟩

/-- C5 is refuted at an empty (non-nil) buckets argument: with the
LLM-latency profile configured as the registry default, registering a
histogram with `buckets = []` (empty, but set) succeeds yet stores the
empty bucket list handed over, not the configured LLM profile. -/
theorem C5_counterexample :
    (RegisterHistogram (New [WithHistogramBuckets DefaultLLMLatencyBuckets])
      "llm_latency_x" "llm latency" (some []) []).2 = none ∧
    bucketsOf
        (RegisterHistogram (New [WithHistogramBuckets DefaultLLMLatencyBuckets])
          "llm_latency_x" "llm latency" (some []) []).1
        (fqName "llm_latency_x") = some [] ∧
    (New [WithHistogramBuckets DefaultLLMLatencyBuckets]).histogramBuckets =
      DefaultLLMLatencyBuckets ∧
    some ([] : List ℚ) ≠ some DefaultLLMLatencyBuckets := by
  refine ⟨by decide, by decide, rfl, by simp [DefaultLLMLatencyBuckets]⟩

/-- C5 (amended): only an unset (`nil`) buckets argument falls back to the
registry's configured default bucket profile (itself the HTTP profile
unless overridden at construction); a non-nil buckets argument — even an
empty one — is handed to the collaborator as given. In particular,
constructing with the LLM-latency profile and registering with
`buckets = nil` yields that profile's boundaries verbatim. -/
theorem C5_buckets_fallback (m : Metrics) (name help : String)
    (labels : List String) (bs : List ℚ)
    (h : containsKey m.registry (fqName name) = false) :
    bucketsOf (RegisterHistogram m name help none labels).1 (fqName name) =
      some m.histogramBuckets ∧
    bucketsOf (RegisterHistogram m name help (some bs) labels).1 (fqName name) =
      some bs ∧
    (New [WithHistogramBuckets DefaultLLMLatencyBuckets]).histogramBuckets =
      DefaultLLMLatencyBuckets ∧
    (New []).histogramBuckets = DefaultHTTPBuckets := by
  rw [RegisterHistogram_of_fresh m name help none labels h,
    RegisterHistogram_of_fresh m name help (some bs) labels h]
  refine ⟨?_, ?_, rfl, rfl⟩
  · simp [bucketsOf, regLookup_append_fresh _ _ _ h, newHistogramVec]
  · simp [bucketsOf, regLookup_append_fresh _ _ _ h, newHistogramVec]

/-- Witness for C5 (amended): with the LLM profile configured, a `nil`
buckets argument yields the LLM boundaries verbatim. -/
theorem C5_buckets_fallback_witness :
    bucketsOf
        (RegisterHistogram (New [WithHistogramBuckets DefaultLLMLatencyBuckets])
          "llm_latency_seconds" "llm latency" none []).1
        (fqName "llm_latency_seconds") = some DefaultLLMLatencyBuckets := by
  have h := C5_buckets_fallback
    (New [WithHistogramBuckets DefaultLLMLatencyBuckets])
    "llm_latency_seconds" "llm latency" [] [] (by decide)
  have h2 := h.1
  rw [h2]
  rfl

end NexenMetrics

namespace NexenMetrics

/-- C2 is refuted as stated: the decorator's recorded status is not fixed
at the earliest of the two events — a later explicit set-status call
overwrites it. After `WriteHeader(200)` the recorded status is 200, yet a
subsequent `WriteHeader(500)` on the same request changes it to 500. -/
theorem C2_counterexample :
    captureStatus [WriterEvent.writeHeader 200] = 200 ∧
    captureStatus
      [WriterEvent.writeHeader 200, WriterEvent.writeHeader 500] = 500 ∧
    (500 : ℤ) ≠ 200 := by
  refine ⟨by decide, by decide, by decide⟩

/-- C2 (amended): the status is recorded at the earliest of the two
events, but every later explicit set-status call overwrites the recorded
status (the last explicit code wins); a body write records the
success-equivalent 200 only when no status has been recorded yet and never
overwrites a recorded one; header-map access leaves it untouched; if
neither event occurs no status is recorded (the zero value remains), the
zero value is below the error threshold, and the middleware then leaves
the error counter untouched. -/
theorem C2_status_recording (evs : List WriterEvent) (c : ℤ) (b : List ℕ)
    (hk hv : String) (m : Metrics) (next : Handler) (r : Request) (d : ℚ) :
    captureStatus (evs ++ [WriterEvent.writeHeader c]) = c ∧
    captureStatus (evs ++ [WriterEvent.write b]) =
      (if captureStatus evs = 0 then 200 else captureStatus evs) ∧
    captureStatus (evs ++ [WriterEvent.setHeader hk hv]) = captureStatus evs ∧
    captureStatus [] = 0 ∧
    ¬ ((0 : ℤ) ≥ 400) ∧
    (captureStatus (next (preDelegate m r) r) < 400 →
      regLookup (InstrumentServe m next r d).1.registry httpErrorsKey =
        regLookup m.registry httpErrorsKey) := by
  refine ⟨?_, ?_, ?_, rfl, by decide, InstrumentServe_errors_of_lt m next r d⟩
  · rw [captureStatus_append_one]; rfl
  · rw [captureStatus_append_one]; rfl
  · rw [captureStatus_append_one]; rfl

/-- Witness for C2 (amended) at concrete inputs: a trailing explicit
status call records its code; a handler that performs no writer operation
leaves the error counter untouched. -/
theorem C2_status_recording_witness :
    captureStatus
      ([WriterEvent.write [104]] ++ [WriterEvent.writeHeader 500]) = 500 ∧
    regLookup
        (InstrumentServe (New []) (fun _ _ => []) ⟨"GET", "/empty"⟩ 1).1.registry
        httpErrorsKey =
      regLookup (New []).registry httpErrorsKey := by
  have h := C2_status_recording [WriterEvent.write [104]] 500 [] "k" "v"
    (New []) (fun _ _ => []) ⟨"GET", "/empty"⟩ 1
  exact ⟨h.1, h.2.2.2.2.2 (by decide)⟩

/-- C3: for every request through the instrumented handler, a captured
status ≥ 400 increments the error counter for
`(method, path, status-text, service)` by exactly 1 — leaving every other
combination of the error counter unchanged — and under 500 the label is
"Internal Server Error"; a captured status below 400 leaves the error
counter entirely untouched. -/
theorem C3_error_counter (m : Metrics) (next : Handler) (r : Request)
    (d : ℚ) :
    (400 ≤ captureStatus (next (preDelegate m r) r) →
      containsKey m.registry httpErrorsKey = true →
      counterValue (InstrumentServe m next r d).1 httpErrorsKey
          [r.method, r.path,
            statusText (captureStatus (next (preDelegate m r) r)),
            m.serviceName] =
        counterValue m httpErrorsKey
          [r.method, r.path,
            statusText (captureStatus (next (preDelegate m r) r)),
            m.serviceName] + 1 ∧
      (∀ combo, combo ≠ [r.method, r.path,
          statusText (captureStatus (next (preDelegate m r) r)),
          m.serviceName] →
        counterValue (InstrumentServe m next r d).1 httpErrorsKey combo =
          counterValue m httpErrorsKey combo)) ∧
    (captureStatus (next (preDelegate m r) r) < 400 →
      regLookup (InstrumentServe m next r d).1.registry httpErrorsKey =
        regLookup m.registry httpErrorsKey) ∧
    statusText 500 = "Internal Server Error" := by
  refine ⟨fun hge hc => ⟨InstrumentServe_errors_inc m next r d hge hc, ?_⟩,
    InstrumentServe_errors_of_lt m next r d, rfl⟩
  intro combo hne
  exact InstrumentServe_errors_other_combo m next r d combo hne

/-- Witness for C3 at concrete inputs: a handler that sets explicit status
500 increments the error counter labelled "Internal Server Error" by
exactly 1 from 0, and a 200 handler leaves the error counter untouched. -/
theorem C3_error_counter_witness :
    counterValue
        (InstrumentServe (New [WithServiceName "svc-A"])
          (fun _ _ => [WriterEvent.writeHeader 500]) ⟨"POST", "/completion"⟩
          1).1
        httpErrorsKey
        ["POST", "/completion", "Internal Server Error", "svc-A"] =
      counterValue (New [WithServiceName "svc-A"]) httpErrorsKey
        ["POST", "/completion", "Internal Server Error", "svc-A"] + 1 ∧
    regLookup
        (InstrumentServe (New [WithServiceName "svc-A"])
          (fun _ _ => [WriterEvent.writeHeader 200]) ⟨"GET", "/health"⟩
          1).1.registry httpErrorsKey =
      regLookup (New [WithServiceName "svc-A"]).registry httpErrorsKey := by
  have h1 := C3_error_counter (New [WithServiceName "svc-A"])
    (fun _ _ => [WriterEvent.writeHeader 500]) ⟨"POST", "/completion"⟩ 1
  have h2 := C3_error_counter (New [WithServiceName "svc-A"])
    (fun _ _ => [WriterEvent.writeHeader 200]) ⟨"GET", "/health"⟩ 1
  exact ⟨(h1.1 (by decide) (by decide)).1, h2.2.1 (by decide)⟩

/-- C4: when the wrapped handler writes body bytes without any explicit
set-status call, the captured status is the success-equivalent default
200, every write is forwarded to the underlying writer unchanged, and the
error counter is left entirely untouched. -/
theorem C4_implicit_success (m : Metrics) (next : Handler) (r : Request)
    (d : ℚ)
    (hnoWH : hasWriteHeader (next (preDelegate m r) r) = false)
    (hwrite : hasBodyWrite (next (preDelegate m r) r) = true) :
    captureStatus (next (preDelegate m r) r) = 200 ∧
    (InstrumentServe m next r d).2 = next (preDelegate m r) r ∧
    regLookup (InstrumentServe m next r d).1.registry httpErrorsKey =
      regLookup m.registry httpErrorsKey := by
  have hst := captureStatus_of_no_writeHeader _ hnoWH
  rw [hwrite] at hst
  simp only [if_true] at hst
  refine ⟨hst, InstrumentServe_output m next r d, ?_⟩
  exact InstrumentServe_errors_of_lt m next r d (by rw [hst]; norm_num)

/-- Witness for C4: a handler that only writes body bytes captures status
200, has its write forwarded verbatim, and touches no error counter. -/
theorem C4_implicit_success_witness :
    captureStatus
      ((fun (_ : Metrics) (_ : Request) => [WriterEvent.write [104, 105]])
        (preDelegate (New []) ⟨"GET", "/ok"⟩) ⟨"GET", "/ok"⟩) = 200 ∧
    (InstrumentServe (New [])
        (fun _ _ => [WriterEvent.write [104, 105]]) ⟨"GET", "/ok"⟩ 1).2 =
      [WriterEvent.write [104, 105]] ∧
    regLookup
        (InstrumentServe (New [])
          (fun _ _ => [WriterEvent.write [104, 105]])
          ⟨"GET", "/ok"⟩ 1).1.registry httpErrorsKey =
      regLookup (New []).registry httpErrorsKey := by
  have h := C4_implicit_success (New [])
    (fun _ _ => [WriterEvent.write [104, 105]]) ⟨"GET", "/ok"⟩ 1
    (by decide) (by decide)
  exact ⟨h.1, h.2.1, h.2.2⟩

end NexenMetrics

namespace NexenMetrics

theorem InstrumentServe_histogramBuckets (m : Metrics) (next : Handler)
    (r : Request) (d : ℚ) :
    (InstrumentServe m next r d).1.histogramBuckets = m.histogramBuckets := by
  simp only [InstrumentServe]
  split <;> rfl

/-- C6: starting from a freshly constructed registry (request counter and
duration count at 0 for the combination), after the instrumented handler
processes N requests to the same `(method, path)` the request counter
reads exactly N and the duration histogram's count reads exactly N; and
for each request the request-counter increment happens before delegating —
the state handed to the wrapped handler already carries the increment. -/
theorem C6_request_counts (opts : List MetricsOption) (next : Handler)
    (r : Request) (ds : List ℚ)
    (hreq : counterValue (New opts) httpRequestsKey
      [r.method, r.path, (New opts).serviceName] = 0)
    (hdur : histCount (New opts) httpDurationKey
      [r.method, r.path, (New opts).serviceName] = 0) :
    counterValue (serveAll next r (New opts) ds) httpRequestsKey
        [r.method, r.path, (New opts).serviceName] = ds.length ∧
    histCount (serveAll next r (New opts) ds) httpDurationKey
        [r.method, r.path, (New opts).serviceName] = ds.length ∧
    (∀ m : Metrics, containsKey m.registry httpRequestsKey = true →
      counterValue (preDelegate m r) httpRequestsKey
          [r.method, r.path, m.serviceName] =
        counterValue m httpRequestsKey [r.method, r.path, m.serviceName] + 1) := by
  obtain ⟨h1, h2, -, -, -⟩ := New_contains_std opts
  refine ⟨?_, ?_, fun m hm => preDelegate_requests m r hm⟩
  · rw [serveAll_requests next r ds (New opts) h1, hreq]
    simp
  · rw [serveAll_duration next r ds (New opts) h2, hdur]
    omega

/-- Witness for C6: two instrumented requests to `GET /health` on a fresh
registry leave the request counter and the duration count at exactly 2. -/
theorem C6_request_counts_witness :
    counterValue
        (serveAll (fun _ _ => [WriterEvent.write [104]]) ⟨"GET", "/health"⟩
          (New []) [1, 2])
        httpRequestsKey ["GET", "/health", (New []).serviceName] = 2 ∧
    histCount
        (serveAll (fun _ _ => [WriterEvent.write [104]]) ⟨"GET", "/health"⟩
          (New []) [1, 2])
        httpDurationKey ["GET", "/health", (New []).serviceName] = 2 := by
  have h := C6_request_counts [] (fun _ _ => [WriterEvent.write [104]])
    ⟨"GET", "/health"⟩ [1, 2] (by rfl) (by rfl)
  exact ⟨by simpa using h.1, by simpa using h.2.1⟩

/-- C9: every metric registered by the core carries the fixed
namespace/subsystem prefixing: the five standard instruments are present
under their exact `nexen_service_*` names after construction, and every
successful custom registration registers its instrument under
`nexen_service_<name>`. -/
theorem C9_prefixed_names (opts : List MetricsOption) (m : Metrics)
    (name help : String) (labels : List String) (bs : Option (List ℚ)) :
    fqName name = "nexen_service_" ++ name ∧
    httpRequestsKey = "nexen_service_http_requests_total" ∧
    httpDurationKey = "nexen_service_http_request_duration_seconds" ∧
    httpErrorsKey = "nexen_service_http_errors_total" ∧
    applicationEventKey = "nexen_service_application_events_total" ∧
    serviceGaugeKey = "nexen_service_gauge" ∧
    (containsKey (New opts).registry httpRequestsKey = true ∧
      containsKey (New opts).registry httpDurationKey = true ∧
      containsKey (New opts).registry httpErrorsKey = true ∧
      containsKey (New opts).registry applicationEventKey = true ∧
      containsKey (New opts).registry serviceGaugeKey = true) ∧
    ((RegisterCounter m name help labels).2 = none →
      containsKey (RegisterCounter m name help labels).1.registry
        ("nexen_service_" ++ name) = true) ∧
    ((RegisterHistogram m name help bs labels).2 = none →
      containsKey (RegisterHistogram m name help bs labels).1.registry
        ("nexen_service_" ++ name) = true) ∧
    ((RegisterGauge m name help labels).2 = none →
      containsKey (RegisterGauge m name help labels).1.registry
        ("nexen_service_" ++ name) = true) := by
  refine ⟨rfl, rfl, rfl, rfl, rfl, rfl, New_contains_std opts, ?_, ?_, ?_⟩
  · intro h
    exact RegisterCounter_snd_none_contains m name help labels h
  · intro h
    exact RegisterHistogram_snd_none_contains m name help bs labels h
  · intro h
    exact RegisterGauge_snd_none_contains m name help labels h

/-- Witness for C9: registering `test_counter` on a fresh registry places
it under `nexen_service_test_counter`. -/
theorem C9_prefixed_names_witness :
    containsKey
        (RegisterCounter (New []) "test_counter" "a test counter"
          ["label1"]).1.registry
        ("nexen_service_" ++ "test_counter") = true := by
  have h := C9_prefixed_names [] (New []) "test_counter" "a test counter"
    ["label1"] none
  exact h.2.2.2.2.2.2.2.1 (by decide)

end NexenMetrics

namespace NexenMetrics

theorem counterValue_bump_self (m : Metrics) (k : String)
    (combo : List String) (f : ℚ → ℚ)
    (h : containsKey m.registry k = true) :
    counterValue
        (updateInstrument m k
          (fun i => { i with values := bumpVal i.values combo f }))
        k combo = f (counterValue m k combo) := by
  obtain ⟨i, hi⟩ := regLookup_isSome_of_containsKey m.registry k h
  simp [counterValue, updateInstrument, regLookup_update_self, hi,
    lookupVal_bump_self]

theorem counterValue_bump_ne_combo (m : Metrics) (k : String)
    (combo combo' : List String) (f : ℚ → ℚ) (h : combo' ≠ combo) :
    counterValue
        (updateInstrument m k
          (fun i => { i with values := bumpVal i.values combo f }))
        k combo' = counterValue m k combo' := by
  cases hi : regLookup m.registry k with
  | none =>
    simp [counterValue, updateInstrument, regLookup_update_self, hi]
  | some i =>
    simp [counterValue, updateInstrument, regLookup_update_self, hi,
      lookupVal_bump_ne _ _ _ _ h]

/-- C7: every custom registration declares the caller's labels with the
`service` label appended last, and every observation the core itself makes
— `RecordEvent`, `SetGauge`, `IncrementGauge`, `DecrementGauge`, and the
middleware's request-counter, duration and error observations — uses the
caller-visible labels with the configured service name appended as the
final label value, touching exactly that combination. -/
theorem C7_service_label (m : Metrics) (name help event gname : String)
    (labels : List String) (bs : Option (List ℚ)) (v : ℚ) :
    (containsKey m.registry (fqName name) = false →
      labelNamesOf (RegisterCounter m name help labels).1 (fqName name) =
        some (labels ++ ["service"]) ∧
      labelNamesOf (RegisterHistogram m name help bs labels).1 (fqName name) =
        some (labels ++ ["service"]) ∧
      labelNamesOf (RegisterGauge m name help labels).1 (fqName name) =
        some (labels ++ ["service"])) ∧
    (labels ++ ["service"]).getLast? = some "service" ∧
    (containsKey m.registry applicationEventKey = true →
      counterValue (RecordEvent m event) applicationEventKey
          [event, m.serviceName] =
        counterValue m applicationEventKey [event, m.serviceName] + 1) ∧
    (∀ combo, combo ≠ [event, m.serviceName] →
      counterValue (RecordEvent m event) applicationEventKey combo =
        counterValue m applicationEventKey combo) ∧
    (∀ k, k ≠ applicationEventKey →
      regLookup (RecordEvent m event).registry k = regLookup m.registry k) ∧
    (containsKey m.registry serviceGaugeKey = true →
      counterValue (IncrementGauge m gname) serviceGaugeKey
          [gname, m.serviceName] =
        counterValue m serviceGaugeKey [gname, m.serviceName] + 1) ∧
    (∀ combo, combo ≠ [gname, m.serviceName] →
      counterValue (IncrementGauge m gname) serviceGaugeKey combo =
        counterValue m serviceGaugeKey combo) ∧
    (containsKey m.registry serviceGaugeKey = true →
      counterValue (SetGauge m gname v) serviceGaugeKey
          [gname, m.serviceName] = v) ∧
    (∀ combo, combo ≠ [gname, m.serviceName] →
      counterValue (SetGauge m gname v) serviceGaugeKey combo =
        counterValue m serviceGaugeKey combo) ∧
    (containsKey m.registry serviceGaugeKey = true →
      counterValue (DecrementGauge m gname) serviceGaugeKey
          [gname, m.serviceName] =
        counterValue m serviceGaugeKey [gname, m.serviceName] - 1) ∧
    (∀ combo, combo ≠ [gname, m.serviceName] →
      counterValue (DecrementGauge m gname) serviceGaugeKey combo =
        counterValue m serviceGaugeKey combo) ∧
    (∀ (next : Handler) (r : Request) (d : ℚ),
      (containsKey m.registry httpRequestsKey = true →
        counterValue (InstrumentServe m next r d).1 httpRequestsKey
            [r.method, r.path, m.serviceName] =
          counterValue m httpRequestsKey [r.method, r.path, m.serviceName]
            + 1) ∧
      (containsKey m.registry httpDurationKey = true →
        histCount (InstrumentServe m next r d).1 httpDurationKey
            [r.method, r.path, m.serviceName] =
          histCount m httpDurationKey [r.method, r.path, m.serviceName]
            + 1) ∧
      (400 ≤ captureStatus (next (preDelegate m r) r) →
        containsKey m.registry httpErrorsKey = true →
        counterValue (InstrumentServe m next r d).1 httpErrorsKey
            [r.method, r.path,
              statusText (captureStatus (next (preDelegate m r) r)),
              m.serviceName] =
          counterValue m httpErrorsKey
            [r.method, r.path,
              statusText (captureStatus (next (preDelegate m r) r)),
              m.serviceName] + 1) ∧
      [r.method, r.path, m.serviceName].getLast? = some m.serviceName) ∧
    [event, m.serviceName].getLast? = some m.serviceName ∧
    [gname, m.serviceName].getLast? = some m.serviceName := by
  refine ⟨?_, ?_, ?_, ?_, ?_, ?_, ?_, ?_, ?_, ?_, ?_, ?_, by simp, by simp⟩
  · intro h
    rw [RegisterCounter_of_fresh m name help labels h,
      RegisterHistogram_of_fresh m name help bs labels h,
      RegisterGauge_of_fresh m name help labels h]
    refine ⟨?_, ?_, ?_⟩ <;>
      simp [labelNamesOf, regLookup_append_fresh _ _ _ h, newCounterVec,
        newHistogramVec, newGaugeVec]
  · simp
  · intro hc
    exact counterValue_inc_self m applicationEventKey [event, m.serviceName] hc
  · intro combo hne
    exact counterValue_inc_ne_combo m applicationEventKey _ combo hne
  · intro k hk
    exact regLookup_incCounterAt_ne m applicationEventKey k _ hk
  · intro hc
    exact counterValue_inc_self m serviceGaugeKey [gname, m.serviceName] hc
  · intro combo hne
    exact counterValue_inc_ne_combo m serviceGaugeKey _ combo hne
  · intro hc
    exact counterValue_bump_self m serviceGaugeKey [gname, m.serviceName]
      (fun _ => v) hc
  · intro combo hne
    exact counterValue_bump_ne_combo m serviceGaugeKey _ combo
      (fun _ => v) hne
  · intro hc
    exact counterValue_bump_self m serviceGaugeKey [gname, m.serviceName]
      (fun x => x - 1) hc
  · intro combo hne
    exact counterValue_bump_ne_combo m serviceGaugeKey _ combo
      (fun x => x - 1) hne
  · intro next r d
    exact ⟨fun hc => InstrumentServe_requests m next r d hc,
      fun hc => InstrumentServe_duration m next r d hc,
      fun hge hc => InstrumentServe_errors_inc m next r d hge hc,
      by simp⟩

/-- Witness for C7: the custom counter of the test suite declares
`["label1", "service"]`; `RecordEvent` bumps `(event, serviceName)` and no
other combination; `SetGauge` writes exactly `(name, serviceName)`;
`DecrementGauge` subtracts 1 there; and an instrumented 500 response
increments the request and error counters at combinations ending in the
service name. -/
theorem C7_service_label_witness :
    labelNamesOf
        (RegisterCounter (New []) "test_counter" "a test counter"
          ["label1"]).1 (fqName "test_counter") =
      some (["label1"] ++ ["service"]) ∧
    counterValue (RecordEvent (New []) "test-event") applicationEventKey
        ["test-event", (New []).serviceName] =
      counterValue (New []) applicationEventKey
        ["test-event", (New []).serviceName] + 1 ∧
    counterValue (RecordEvent (New []) "test-event") applicationEventKey
        ["other-event", (New []).serviceName] =
      counterValue (New []) applicationEventKey
        ["other-event", (New []).serviceName] ∧
    counterValue (SetGauge (New []) "test-gauge" 42) serviceGaugeKey
        ["test-gauge", (New []).serviceName] = 42 ∧
    counterValue (DecrementGauge (New []) "test-gauge") serviceGaugeKey
        ["test-gauge", (New []).serviceName] =
      counterValue (New []) serviceGaugeKey
        ["test-gauge", (New []).serviceName] - 1 ∧
    counterValue
        (InstrumentServe (New [])
          (fun _ _ => [WriterEvent.writeHeader 500]) ⟨"GET", "/x"⟩ 1).1
        httpRequestsKey ["GET", "/x", (New []).serviceName] =
      counterValue (New []) httpRequestsKey
        ["GET", "/x", (New []).serviceName] + 1 ∧
    counterValue
        (InstrumentServe (New [])
          (fun _ _ => [WriterEvent.writeHeader 500]) ⟨"GET", "/x"⟩ 1).1
        httpErrorsKey
        ["GET", "/x",
          statusText (captureStatus [WriterEvent.writeHeader 500]),
          (New []).serviceName] =
      counterValue (New []) httpErrorsKey
        ["GET", "/x",
          statusText (captureStatus [WriterEvent.writeHeader 500]),
          (New []).serviceName] + 1 := by
  have h := C7_service_label (New []) "test_counter" "a test counter"
    "test-event" "test-gauge" ["label1"] none 42
  have hmw := h.2.2.2.2.2.2.2.2.2.2.2.1
    (fun _ _ => [WriterEvent.writeHeader 500]) ⟨"GET", "/x"⟩ 1
  exact ⟨(h.1 (by decide)).1, h.2.2.1 (by decide),
    h.2.2.2.1 ["other-event", (New []).serviceName] (by decide),
    h.2.2.2.2.2.2.2.1 (by decide),
    h.2.2.2.2.2.2.2.2.2.1 (by decide),
    hmw.1 (by decide),
    hmw.2.2.1 (by decide) (by decide)⟩

/-- C8: the instrumented handler is transparent — every writer operation
the wrapped handler performs reaches the underlying writer unchanged (same
status writes, same header writes, same body bytes), the configuration is
untouched, and the only registry effects are the specified ones: request
counter +1, one duration observation, and an error-counter increment
exactly when the captured status is ≥ 400; all other instruments are left
exactly as they were. -/
theorem C8_transparent (m : Metrics) (h0 : Request → List WriterEvent)
    (r : Request) (d : ℚ) :
    (InstrumentServe m (fun _ req => h0 req) r d).2 = h0 r ∧
    (InstrumentServe m (fun _ req => h0 req) r d).1.serviceName =
      m.serviceName ∧
    (InstrumentServe m (fun _ req => h0 req) r d).1.histogramBuckets =
      m.histogramBuckets ∧
    (∀ k, k ≠ httpRequestsKey → k ≠ httpDurationKey → k ≠ httpErrorsKey →
      regLookup (InstrumentServe m (fun _ req => h0 req) r d).1.registry k =
        regLookup m.registry k) ∧
    (containsKey m.registry httpRequestsKey = true →
      counterValue (InstrumentServe m (fun _ req => h0 req) r d).1
          httpRequestsKey [r.method, r.path, m.serviceName] =
        counterValue m httpRequestsKey [r.method, r.path, m.serviceName]
          + 1) ∧
    (containsKey m.registry httpDurationKey = true →
      histCount (InstrumentServe m (fun _ req => h0 req) r d).1
          httpDurationKey [r.method, r.path, m.serviceName] =
        histCount m httpDurationKey [r.method, r.path, m.serviceName] + 1) ∧
    (400 ≤ captureStatus (h0 r) →
      containsKey m.registry httpErrorsKey = true →
      counterValue (InstrumentServe m (fun _ req => h0 req) r d).1
          httpErrorsKey
          [r.method, r.path, statusText (captureStatus (h0 r)),
            m.serviceName] =
        counterValue m httpErrorsKey
          [r.method, r.path, statusText (captureStatus (h0 r)),
            m.serviceName] + 1) ∧
    (captureStatus (h0 r) < 400 →
      regLookup (InstrumentServe m (fun _ req => h0 req) r d).1.registry
          httpErrorsKey = regLookup m.registry httpErrorsKey) := by
  refine ⟨InstrumentServe_output m _ r d,
    InstrumentServe_serviceName m _ r d,
    InstrumentServe_histogramBuckets m _ r d,
    fun k h1 h2 h3 => InstrumentServe_other_keys m _ r d k h1 h2 h3,
    fun hc => InstrumentServe_requests m _ r d hc,
    fun hc => InstrumentServe_duration m _ r d hc,
    fun hge hc => InstrumentServe_errors_inc m _ r d hge hc,
    fun hlt => InstrumentServe_errors_of_lt m _ r d hlt⟩

/-- Witness for C8: a handler that writes status 500 and a body has its
two operations forwarded verbatim, and the registry delta is exactly the
specified one. -/
theorem C8_transparent_witness :
    (InstrumentServe (New [WithServiceName "svc-A"])
        (fun _ _ => [WriterEvent.writeHeader 500, WriterEvent.write [104]])
        ⟨"POST", "/completion"⟩ 1).2 =
      [WriterEvent.writeHeader 500, WriterEvent.write [104]] ∧
    regLookup
        (InstrumentServe (New [WithServiceName "svc-A"])
          (fun _ _ => [WriterEvent.writeHeader 500, WriterEvent.write [104]])
          ⟨"POST", "/completion"⟩ 1).1.registry serviceGaugeKey =
      regLookup (New [WithServiceName "svc-A"]).registry serviceGaugeKey ∧
    counterValue
        (InstrumentServe (New [WithServiceName "svc-A"])
          (fun _ _ => [WriterEvent.writeHeader 500, WriterEvent.write [104]])
          ⟨"POST", "/completion"⟩ 1).1 httpRequestsKey
        ["POST", "/completion", (New [WithServiceName "svc-A"]).serviceName] =
      counterValue (New [WithServiceName "svc-A"]) httpRequestsKey
        ["POST", "/completion",
          (New [WithServiceName "svc-A"]).serviceName] + 1 := by
  have h := C8_transparent (New [WithServiceName "svc-A"])
    (fun _ => [WriterEvent.writeHeader 500, WriterEvent.write [104]])
    ⟨"POST", "/completion"⟩ 1
  exact ⟨h.1, h.2.2.2.1 serviceGaugeKey (by decide) (by decide) (by decide),
    h.2.2.2.2.1 (by decide)⟩

end NexenMetrics
